import Mathlib

/-!
# Verification of the attendance-tracking service (src/app.py)

Shallow embedding of the core of `src/app.py`: the status-derivation logic
and report builder of `get_student_data`, the event-store contract it
depends on (insert via `track_attendance` / `logout_attendance`, and the
latest-per-user aggregation pipeline), and the static `MOCK_USERS`
directory.

Modelling conventions:
* instants (`datetime`) are integers counting seconds since the Unix
  epoch; `timedelta` values are integer numbers of seconds
  (`ACTIVITY_TIMEOUT_MINUTES = 5` becomes 300 seconds, the IST offset
  `+5:30` becomes 19800 seconds);
* `datetime.isoformat` (for whole-second datetimes, as produced by the
  model) is implemented from the proleptic-Gregorian civil calendar;
* Python `str.lower` / `str.title` are modelled on ASCII, which covers
  every string the program compares or displays;
* a Mongo document's optional fields (`metadata.client_status`,
  `metadata.tab_focused`) are `Option`-valued, with the `.get(key,
  default)` defaults of the source applied at the use site.
-/

/-! ## Python ASCII string primitives -/

/-- `c` is an ASCII uppercase letter. -/
def pyIsUpper (c : Char) : Bool := 65 ≤ c.toNat && c.toNat ≤ 90

/-- `c` is an ASCII lowercase letter. -/
def pyIsLower (c : Char) : Bool := 97 ≤ c.toNat && c.toNat ≤ 122

/-- `c` is an ASCII letter (the cased characters relevant to `str.title`). -/
def pyIsAlpha (c : Char) : Bool := pyIsUpper c || pyIsLower c

/-- ASCII `str.lower` on one character. -/
def pyLowerChar (c : Char) : Char :=
  if pyIsUpper c then Char.ofNat (c.toNat + 32) else c

/-- ASCII `str.upper` on one character. -/
def pyUpperChar (c : Char) : Char :=
  if pyIsLower c then Char.ofNat (c.toNat - 32) else c

/-- Python `str.lower` (ASCII fragment). -/
def pyLower (s : String) : String := ⟨s.data.map pyLowerChar⟩

/-- One step of Python `str.title`: a letter is uppercased when the previous
character was not a letter and lowercased otherwise; other characters pass
through and reset the word boundary. -/
def titleAux : Bool → List Char → List Char
  | _, [] => []
  | prevAlpha, c :: cs =>
    (if pyIsAlpha c then (if prevAlpha then pyLowerChar c else pyUpperChar c) else c)
      :: titleAux (pyIsAlpha c) cs

/-- Python `str.title` (ASCII fragment). -/
def pyTitle (s : String) : String := ⟨titleAux false s.data⟩

theorem toNat_ofNat_valid (n : Nat) (h : n < 0xd800) : (Char.ofNat n).toNat = n := by
  rw [Char.ofNat, dif_pos (Or.inl h)]
  rfl

theorem pyIsUpper_bounds {c : Char} (h : pyIsUpper c = true) :
    65 ≤ c.toNat ∧ c.toNat ≤ 90 := by
  simpa [pyIsUpper] using h

theorem toNat_pyLowerChar_of_upper {c : Char} (h : pyIsUpper c = true) :
    (pyLowerChar c).toNat = c.toNat + 32 := by
  have ha := pyIsUpper_bounds h
  rw [pyLowerChar, if_pos h]
  exact toNat_ofNat_valid _ (by omega)

theorem pyIsUpper_pyLowerChar (c : Char) : pyIsUpper (pyLowerChar c) = false := by
  by_cases h : pyIsUpper c = true
  · have ha := pyIsUpper_bounds h
    have hv := toNat_pyLowerChar_of_upper h
    simp only [pyIsUpper, hv]
    simp only [Bool.and_eq_false_iff, decide_eq_false_iff_not]
    omega
  · rw [pyLowerChar, if_neg h]
    exact Bool.eq_false_iff.2 h

theorem pyIsLower_pyLowerChar (c : Char) : pyIsLower (pyLowerChar c) = pyIsAlpha c := by
  by_cases h : pyIsUpper c = true
  · have ha := pyIsUpper_bounds h
    have hv := toNat_pyLowerChar_of_upper h
    simp only [pyIsAlpha, h, Bool.true_or, pyIsLower, hv]
    simp only [Bool.and_eq_true, decide_eq_true_eq]
    omega
  · rw [pyLowerChar, if_neg h]
    simp [pyIsAlpha, Bool.eq_false_iff.2 h]

theorem pyIsAlpha_pyLowerChar (c : Char) : pyIsAlpha (pyLowerChar c) = pyIsAlpha c := by
  simp [pyIsAlpha, pyIsUpper_pyLowerChar, pyIsLower_pyLowerChar]

theorem pyLowerChar_pyLowerChar (c : Char) :
    pyLowerChar (pyLowerChar c) = pyLowerChar c := by
  nth_rewrite 1 [pyLowerChar]
  rw [pyIsUpper_pyLowerChar]
  simp

theorem pyUpperChar_pyLowerChar (c : Char) :
    pyUpperChar (pyLowerChar c) = pyUpperChar c := by
  by_cases h : pyIsUpper c = true
  · have ha := pyIsUpper_bounds h
    have hv := toNat_pyLowerChar_of_upper h
    have hlow : pyIsLower (pyLowerChar c) = true := by
      rw [pyIsLower_pyLowerChar]
      simp [pyIsAlpha, h]
    have hnl : pyIsLower c = false := by
      simp only [pyIsLower, Bool.and_eq_false_iff, decide_eq_false_iff_not]
      omega
    have lhs : pyUpperChar (pyLowerChar c) = c := by
      rw [pyUpperChar, if_pos hlow, hv]
      have hsub : c.toNat + 32 - 32 = c.toNat := by omega
      rw [hsub, Char.ofNat_toNat]
    have rhs : pyUpperChar c = c := by
      rw [pyUpperChar, if_neg (by simp [hnl])]
    rw [lhs, rhs]
  · rw [pyLowerChar, if_neg h]

/-! ## Civil calendar and `datetime.isoformat` -/

/-- Days since the Unix epoch to a proleptic-Gregorian `(year, month, day)`
(the standard civil-from-days computation, matching Python `datetime`). -/
def civilFromDays (z : Int) : Int × Nat × Nat :=
  let z2 : Int := z + 719468
  let era : Int := z2.fdiv 146097
  let doe : Nat := (z2 - era * 146097).toNat
  let yoe : Nat := (doe - doe / 1460 + doe / 36524 - doe / 146096) / 365
  let doy : Nat := doe - (365 * yoe + yoe / 4 - yoe / 100)
  let mp : Nat := (5 * doy + 2) / 153
  let d : Nat := doy - (153 * mp + 2) / 5 + 1
  let m : Nat := if mp < 10 then mp + 3 else mp - 9
  (era * 400 + yoe + (if m ≤ 2 then 1 else 0), m, d)

/-- Zero-pad a number to two digits, as in `datetime.isoformat`. -/
def pad2 (n : Nat) : String := if n < 10 then "0" ++ toString n else toString n

/-- Zero-pad a year to four digits, as in `datetime.isoformat`. -/
def pad4 (n : Int) : String :=
  let m := n.toNat
  if m < 10 then "000" ++ toString m
  else if m < 100 then "00" ++ toString m
  else if m < 1000 then "0" ++ toString m
  else toString m

/-- `datetime.isoformat()` for a naive whole-second datetime given as seconds
since the Unix epoch: `YYYY-MM-DDTHH:MM:SS`, no timezone suffix. -/
def isoformat (t : Int) : String :=
  let days : Int := t.fdiv 86400
  let secs : Nat := (t - days * 86400).toNat
  let ymd := civilFromDays days
  pad4 ymd.1 ++ "-" ++ pad2 ymd.2.1 ++ "-" ++ pad2 ymd.2.2 ++ "T" ++
    pad2 (secs / 3600) ++ ":" ++ pad2 (secs % 3600 / 60) ++ ":" ++ pad2 (secs % 60)

/-! ## Data model (src/app.py configuration, mock users, event documents) -/

/-- `ACTIVITY_TIMEOUT_MINUTES = 5` (src/app.py line 11), in seconds. -/
def ACTIVITY_TIMEOUT_SECONDS : Int := 5 * 60

/-- `IST_OFFSET = timedelta(hours=5, minutes=30)` (src/app.py line 184), in
seconds. -/
def IST_OFFSET : Int := 5 * 3600 + 30 * 60

/-- The `metadata` sub-document of an event. `client_status` and
`tab_focused` are optional: the dashboard reads them with
`event['metadata'].get('client_status', 'N/A')` and
`event['metadata'].get('tab_focused', False)`. `client_timestamp` is stored
but never read by the dashboard, so it is kept as an optional opaque
string. -/
structure Metadata where
  client_status : Option String
  tab_focused : Option Bool
  client_timestamp : Option String
deriving Repr, DecidableEq

/-- A stored attendance event document. `server_timestamp` is the
server-assigned instant (seconds since the Unix epoch). -/
structure Event where
  user_id : String
  event_type : String
  metadata : Metadata
  server_timestamp : Int
deriving Repr, DecidableEq

/-- One entry of the static `MOCK_USERS` table (src/app.py lines 32-36):
dict values in insertion order. -/
structure UserEntry where
  id : String
  name : String
  role : String
  password : String
deriving Repr, DecidableEq

/-- The `MOCK_USERS` directory, in dict insertion order. -/
def MOCK_USERS : List UserEntry :=
  [ ⟨"MCA-428", "Leni E", "student", "123"⟩,
    ⟨"tch-99b3", "Professor Jenifer Jose", "teacher", "admin"⟩,
    ⟨"MCA-112", "Soni Priya", "student", "123"⟩ ]

/-- One row of the dashboard status report (the dict appended to
`status_report` in `get_student_data`). -/
structure Row where
  id : String
  name : String
  status : String
  focus : String
  last_event : String
  timestamp : String
deriving Repr, DecidableEq

/-! ## Event ingestion (src/app.py `track_attendance`, `logout_attendance`) -/

/-- The client-supplied payload of `POST /api/track_attendance` after field
validation: `user_id`, `event_type` and `metadata` are all present. -/
structure Payload where
  user_id : String
  event_type : String
  metadata : Metadata
deriving Repr, DecidableEq

/-- `track_attendance` (src/app.py lines 73-90): stamp
`server_timestamp = now` onto the payload and append it to the events
collection. -/
def recordEvent (store : List Event) (p : Payload) (now : Int) : List Event :=
  store ++ [⟨p.user_id, p.event_type, p.metadata, now⟩]

/-- `logout_attendance` (src/app.py lines 93-124): append the synthesized
logout event for `user_id`. -/
def recordLogout (store : List Event) (uid : String) (now : Int) : List Event :=
  store ++ [⟨uid, "logout", ⟨some "logged_out", some false, some (isoformat now)⟩, now⟩]

/-! ## Status derivation and report building (src/app.py `get_student_data`) -/

/-- The per-student body of the report loop (src/app.py lines 188-242):
from the student's latest event (or its absence) and the evaluation instant
`now`, build the report row. The staleness threshold is
`timeout_threshold = now - ACTIVITY_TIMEOUT_SECONDS` (line 181) and the
displayed timestamp is `(server_timestamp + IST_OFFSET).isoformat()`
(lines 229-240). -/
def deriveRow (uid name : String) (latest : Option Event) (now : Int) : Row :=
  match latest with
  | none => ⟨uid, name, "Never Logged In", "N/A", "None", "N/A"⟩
  | some event =>
    let client_status := pyLower (event.metadata.client_status.getD "N/A")
    let tab_focused := event.metadata.tab_focused.getD false
    let timeout_threshold := now - ACTIVITY_TIMEOUT_SECONDS
    let sf : String × String :=
      if client_status = "logged_out" then ("Logged Out", "N/A")
      else if event.server_timestamp < timeout_threshold then ("Offline (Inactive)", "N/A")
      else if client_status = "active" then
        ("Active", if tab_focused then "Focused" else "Blurred")
      else if client_status = "idle" then
        ("Idle", if tab_focused then "Focused" else "Blurred")
      else ("Unknown (" ++ pyTitle client_status ++ ")", "N/A")
    ⟨uid, name, sf.1, sf.2, event.event_type,
      isoformat (event.server_timestamp + IST_OFFSET)⟩

/-- Reduce a list of candidate events to the one with the maximal
`server_timestamp` (the `$sort` newest-first / `$group` `$first` pipeline of
src/app.py lines 155-162); on equal timestamps the later list element is
kept. -/
def pickLatest : Option Event → List Event → Option Event
  | acc, [] => acc
  | none, e :: es => pickLatest (some e) es
  | some a, e :: es =>
    pickLatest (some (if a.server_timestamp ≤ e.server_timestamp then e else a)) es

/-- The latest stored event of user `uid`, or `none` if the user has no
events (absent from `latest_events_map`, src/app.py lines 164-176). -/
def latestEvent (store : List Event) (uid : String) : Option Event :=
  pickLatest none (store.filter (fun e => e.user_id = uid))

/-- Python dict insertion/update: an existing key keeps its position and is
overwritten, a new key is appended. -/
def insertUpdate (m : List (String × String)) (k v : String) : List (String × String) :=
  if m.any (fun p => p.1 = k) then
    m.map (fun p => if p.1 = k then (k, v) else p)
  else m ++ [(k, v)]

/-- The `all_students` dict of src/app.py line 151:
`{user_data['id']: user_data['name'] for user_data in MOCK_USERS.values()
if user_data['role'] == 'student'}`, in dict iteration order. -/
def allStudents (directory : List UserEntry) : List (String × String) :=
  directory.foldl
    (fun m u => if u.role = "student" then insertUpdate m u.id u.name else m) []

/-- `get_student_data` report assembly (src/app.py lines 151-244): one row
per `all_students` entry, in directory iteration order, each derived from
that student's latest event. -/
def buildReport (directory : List UserEntry) (store : List Event) (now : Int) : List Row :=
  (allStudents directory).map (fun p => deriveRow p.1 p.2 (latestEvent store p.1) now)

/-! ## Supporting lemmas -/

theorem titleAux_map_lower (l : List Char) :
    ∀ b, titleAux b (l.map pyLowerChar) = titleAux b l := by
  induction l with
  | nil => intro b; rfl
  | cons c cs ih =>
    intro b
    simp only [List.map_cons, titleAux, pyIsAlpha_pyLowerChar, pyLowerChar_pyLowerChar,
      pyUpperChar_pyLowerChar, ih]
    by_cases h : pyIsAlpha c = true
    · simp [h]
    · have hup : pyIsUpper c = false := by
        rcases Bool.eq_false_iff.1 (Bool.eq_false_iff.2 h) with _
        simp only [pyIsAlpha, Bool.or_eq_true] at h
        exact Bool.eq_false_iff.2 fun hu => h (Or.inl hu)
      simp [h, pyLowerChar, hup]

/-- Python `str.title` is insensitive to prior lowercasing, so displaying
`client_status.title()` after the dashboard has lowercased `client_status`
shows the raw value title-cased. -/
theorem pyTitle_pyLower (s : String) : pyTitle (pyLower s) = pyTitle s := by
  unfold pyTitle pyLower
  rw [show (String.mk (s.data.map pyLowerChar)).data = s.data.map pyLowerChar from rfl,
    titleAux_map_lower]

theorem deriveRow_id (uid name : String) (latest : Option Event) (now : Int) :
    (deriveRow uid name latest now).id = uid := by
  cases latest <;> rfl

theorem pickLatest_acc_max (e : Event) (l : List Event)
    (hall : ∀ x ∈ l, x = e ∨ x.server_timestamp < e.server_timestamp) :
    ∀ acc : Option Event,
      (acc = some e ∨
        ((∀ a, acc = some a → a.server_timestamp < e.server_timestamp) ∧ e ∈ l)) →
      pickLatest acc l = some e := by
  induction l with
  | nil =>
    intro acc hacc
    rcases hacc with h | ⟨_, hmem⟩
    · cases acc with
      | none => cases h
      | some a => simpa [pickLatest] using h
    · cases hmem
  | cons x xs ih =>
    have hallxs : ∀ y ∈ xs, y = e ∨ y.server_timestamp < e.server_timestamp :=
      fun y hy => hall y (List.mem_cons_of_mem _ hy)
    have hx := hall x (List.mem_cons_self _ _)
    intro acc hacc
    cases acc with
    | none =>
      show pickLatest (some x) xs = some e
      rcases hx with rfl | hlt
      · exact ih hallxs (some x) (Or.inl rfl)
      · have hne : e ≠ x := fun h => absurd hlt (by rw [h]; exact lt_irrefl _)
        have hmem : e ∈ xs := by
          rcases hacc with h | ⟨_, hmem⟩
          · cases h
          · rcases List.mem_cons.1 hmem with h | h
            · exact absurd h hne
            · exact h
        exact ih hallxs (some x)
          (Or.inr ⟨fun a ha => Option.some.inj ha ▸ hlt, hmem⟩)
    | some a =>
      show pickLatest
        (some (if a.server_timestamp ≤ x.server_timestamp then x else a)) xs = some e
      rcases hacc with h | ⟨hlt, hmem⟩
      · have ha : a = e := by injection h
        subst ha
        by_cases hle : a.server_timestamp ≤ x.server_timestamp
        · rcases hx with rfl | hxlt
          · rw [if_pos hle]
            exact ih hallxs (some x) (Or.inl rfl)
          · exact absurd hxlt (not_lt.2 hle)
        · rw [if_neg hle]
          exact ih hallxs (some a) (Or.inl rfl)
      · have half : a.server_timestamp < e.server_timestamp := hlt a rfl
        rcases hx with rfl | hxlt
        · rw [if_pos (le_of_lt half)]
          exact ih hallxs (some x) (Or.inl rfl)
        · have hne : e ≠ x := fun h => absurd hxlt (by rw [h]; exact lt_irrefl _)
          have hmemxs : e ∈ xs := by
            rcases List.mem_cons.1 hmem with h | h
            · exact absurd h hne
            · exact h
          by_cases hle : a.server_timestamp ≤ x.server_timestamp
          · rw [if_pos hle]
            exact ih hallxs (some x)
              (Or.inr ⟨fun b hb => Option.some.inj hb ▸ hxlt, hmemxs⟩)
          · rw [if_neg hle]
            exact ih hallxs (some a)
              (Or.inr ⟨fun b hb => Option.some.inj hb ▸ half, hmemxs⟩)

/-- The aggregation pipeline of `get_student_data` returns, for user `uid`,
exactly the event with the strictly maximal `server_timestamp` among that
user's stored events. -/
theorem latestEvent_max (store : List Event) (uid : String) (e : Event)
    (he : e ∈ store) (hid : e.user_id = uid)
    (hmax : ∀ x ∈ store, x.user_id = uid →
      x = e ∨ x.server_timestamp < e.server_timestamp) :
    latestEvent store uid = some e := by
  unfold latestEvent
  apply pickLatest_acc_max e
  · intro x hx
    have hx2 := List.mem_filter.1 hx
    exact hmax x hx2.1 (by simpa using hx2.2)
  · exact Or.inr ⟨fun a ha => Option.noConfusion ha, List.mem_filter.2 ⟨he, by simp [hid]⟩⟩

theorem allStudents_aux (dir : List UserEntry) :
    ∀ acc : List (String × String),
      (∀ u ∈ dir, u.role = "student" → ∀ p ∈ acc, p.1 ≠ u.id) →
      ((dir.filter (fun u => u.role = "student")).map (fun u => u.id)).Nodup →
      dir.foldl
          (fun m u => if u.role = "student" then insertUpdate m u.id u.name else m) acc
        = acc ++ (dir.filter (fun u => u.role = "student")).map (fun u => (u.id, u.name)) := by
  induction dir with
  | nil => intro acc _ _; simp
  | cons u dir ih =>
    intro acc hfresh hnd
    by_cases hrole : u.role = "student"
    · have hstep :
          insertUpdate acc u.id u.name = acc ++ [(u.id, u.name)] := by
        unfold insertUpdate
        rw [if_neg]
        simp only [List.any_eq_true, decide_eq_true_eq, not_exists, not_and]
        intro p hp
        exact hfresh u (List.mem_cons_self _ _) hrole p hp
      have hfilter :
          (u :: dir).filter (fun v => v.role = "student")
            = u :: dir.filter (fun v => v.role = "student") := by
        simp [List.filter_cons, hrole]
      rw [hfilter] at hnd
      simp only [List.map_cons, List.nodup_cons] at hnd
      have hfresh2 :
          ∀ v ∈ dir, v.role = "student" →
            ∀ p ∈ acc ++ [(u.id, u.name)], p.1 ≠ v.id := by
        intro v hv hvrole p hp
        rcases List.mem_append.1 hp with h | h
        · exact hfresh v (List.mem_cons_of_mem _ hv) hvrole p h
        · have hpu : p = (u.id, u.name) := by simpa using h
          subst hpu
          intro hcontra
          exact hnd.1
            (List.mem_map.2 ⟨v, List.mem_filter.2 ⟨hv, by simp [hvrole]⟩, hcontra.symm⟩)
      have := ih (acc ++ [(u.id, u.name)]) hfresh2 hnd.2
      simp only [List.foldl_cons, if_pos hrole, hstep]
      rw [this, hfilter]
      simp
    · have hfilter :
          (u :: dir).filter (fun v => v.role = "student")
            = dir.filter (fun v => v.role = "student") := by
        simp [List.filter_cons, hrole]
      rw [hfilter] at hnd
      simp only [List.foldl_cons, if_neg hrole]
      rw [ih acc (fun v hv => hfresh v (List.mem_cons_of_mem _ hv)) hnd, hfilter]

/-- Under the id-uniqueness invariant, the `all_students` dict lists exactly
the student entries of the directory, in directory order. -/
theorem allStudents_eq (directory : List UserEntry)
    (h : ((directory.filter (fun u => u.role = "student")).map (fun u => u.id)).Nodup) :
    allStudents directory
      = (directory.filter (fun u => u.role = "student")).map (fun u => (u.id, u.name)) := by
  unfold allStudents
  simpa using allStudents_aux directory [] (by intro u _ _ p hp; cases hp) h

/-! ## Claim theorems -/

/-- C1: for every stored event whose metadata `client_status`,
case-insensitively normalized, equals `"logged_out"`, status derivation
returns status `Logged Out` with focus `N/A`, regardless of how far the
event's `server_timestamp` lies before `now` (explicit logout always wins
over staleness). -/
theorem C1_logout_wins (uid name : String) (e : Event) (now : Int)
    (h : pyLower (e.metadata.client_status.getD "N/A") = "logged_out") :
    (deriveRow uid name (some e) now).status = "Logged Out" ∧
    (deriveRow uid name (some e) now).focus = "N/A" := by
  simp [deriveRow, h]

def eventC1 : Event :=
  ⟨"MCA-428", "logout", ⟨some "LOGGED_OUT", some false, none⟩, 0⟩

theorem C1_logout_wins_witness :
    pyLower (eventC1.metadata.client_status.getD "N/A") = "logged_out" ∧
    ((deriveRow "MCA-428" "Leni E" (some eventC1) 1000000000).status = "Logged Out" ∧
     (deriveRow "MCA-428" "Leni E" (some eventC1) 1000000000).focus = "N/A") :=
  ⟨by decide, C1_logout_wins "MCA-428" "Leni E" eventC1 1000000000 (by decide)⟩

/-- C2: for every latest event whose normalized `client_status` is not
`"logged_out"` and whose `server_timestamp` is strictly earlier than
`now` minus the 5-minute staleness threshold, status derivation returns
status `Offline (Inactive)` with focus `N/A`, whatever the `client_status`
value. -/
theorem C2_stale_overrides (uid name : String) (e : Event) (now : Int)
    (h1 : pyLower (e.metadata.client_status.getD "N/A") ≠ "logged_out")
    (h2 : e.server_timestamp < now - ACTIVITY_TIMEOUT_SECONDS) :
    (deriveRow uid name (some e) now).status = "Offline (Inactive)" ∧
    (deriveRow uid name (some e) now).focus = "N/A" := by
  simp [deriveRow, h1, h2]

def eventC2 : Event :=
  ⟨"MCA-428", "heartbeat", ⟨some "active", some true, none⟩, 999640⟩

theorem C2_stale_overrides_witness :
    pyLower (eventC2.metadata.client_status.getD "N/A") ≠ "logged_out" ∧
    eventC2.server_timestamp < 1000000 - ACTIVITY_TIMEOUT_SECONDS ∧
    ((deriveRow "MCA-428" "Leni E" (some eventC2) 1000000).status = "Offline (Inactive)" ∧
     (deriveRow "MCA-428" "Leni E" (some eventC2) 1000000).focus = "N/A") :=
  ⟨by decide, by decide,
    C2_stale_overrides "MCA-428" "Leni E" eventC2 1000000 (by decide) (by decide)⟩

/-- C3: for every user with no stored events, status derivation returns
status `Never Logged In`, focus `N/A` and displayed timestamp `"N/A"`
(and last event `"None"`), for every value of `now`. -/
theorem C3_never_logged_in (uid name : String) (now : Int) :
    deriveRow uid name none now =
      ⟨uid, name, "Never Logged In", "N/A", "None", "N/A"⟩ := rfl

/-- C6: for every report row that has an event, the displayed timestamp is
`(server_timestamp + IST_OFFSET).isoformat()` — the fixed +5:30 offset,
rendered as an ISO-8601-like local string with no timezone suffix — and in
particular `server_timestamp = 2024-01-01T00:00:00Z` (epoch second
1704067200) is displayed as `2024-01-01T05:30:00`. -/
theorem C6_timestamp_display (uid name : String) (e : Event) (now : Int) :
    (deriveRow uid name (some e) now).timestamp =
      isoformat (e.server_timestamp + IST_OFFSET) ∧
    isoformat (1704067200 + IST_OFFSET) = "2024-01-01T05:30:00" :=
  ⟨rfl, by decide⟩

/-- C10: the `status` and `focus` fields of a report row do not depend on
the event's `event_type`: changing only `event_type` leaves every row field
except `last_event` unchanged (and `last_event` becomes the new
`event_type`). -/
theorem C10_event_type_irrelevant (uid name : String) (e : Event) (t : String) (now : Int) :
    (deriveRow uid name (some { e with event_type := t }) now).status =
      (deriveRow uid name (some e) now).status ∧
    (deriveRow uid name (some { e with event_type := t }) now).focus =
      (deriveRow uid name (some e) now).focus ∧
    (deriveRow uid name (some { e with event_type := t }) now).id =
      (deriveRow uid name (some e) now).id ∧
    (deriveRow uid name (some { e with event_type := t }) now).name =
      (deriveRow uid name (some e) now).name ∧
    (deriveRow uid name (some { e with event_type := t }) now).timestamp =
      (deriveRow uid name (some e) now).timestamp ∧
    (deriveRow uid name (some { e with event_type := t }) now).last_event = t :=
  ⟨rfl, rfl, rfl, rfl, rfl, rfl⟩

/-- C4: for every directory (with the directory invariant that student ids
are unique) and every store state, the report has exactly one row per
student-role directory entry, in directory iteration order (row ids equal
the student entry ids in order); teacher-role entries never produce a row,
and the row count does not depend on the store. -/
theorem C4_report_shape (directory : List UserEntry) (store : List Event) (now : Int)
    (h : ((directory.filter (fun u => u.role = "student")).map (fun u => u.id)).Nodup) :
    (buildReport directory store now).map (fun r => r.id)
      = (directory.filter (fun u => u.role = "student")).map (fun u => u.id) ∧
    (buildReport directory store now).length
      = (directory.filter (fun u => u.role = "student")).length := by
  have hb : buildReport directory store now
      = ((directory.filter (fun u => u.role = "student")).map
          (fun u => (u.id, u.name))).map
            (fun p => deriveRow p.1 p.2 (latestEvent store p.1) now) := by
    rw [buildReport, allStudents_eq directory h]
  constructor
  · rw [hb, List.map_map, List.map_map]
    exact List.map_congr_left fun u _ => deriveRow_id _ _ _ _
  · rw [hb]
    simp

def storeC4 : List Event :=
  [⟨"MCA-428", "heartbeat", ⟨some "active", some true, none⟩, 100⟩]

theorem C4_report_shape_witness :
    ((MOCK_USERS.filter (fun u => u.role = "student")).map (fun u => u.id)).Nodup ∧
    ((buildReport MOCK_USERS storeC4 1000).map (fun r => r.id)
        = (MOCK_USERS.filter (fun u => u.role = "student")).map (fun u => u.id) ∧
      (buildReport MOCK_USERS storeC4 1000).length
        = (MOCK_USERS.filter (fun u => u.role = "student")).length) :=
  ⟨by decide, C4_report_shape MOCK_USERS storeC4 1000 (by decide)⟩

/-- C5: a student's report row is derived solely from that student's event
with the maximum `server_timestamp`: if `e` is an event of user `uid` whose
timestamp strictly dominates every other event of `uid` in the store, the
latest-per-key query returns `e` and the student's report row is built from
`e` alone — latest-wins regardless of how many (duplicate) events exist. -/
theorem C5_latest_wins (store : List Event) (uid : String) (e : Event) (now : Int)
    (he : e ∈ store) (hid : e.user_id = uid)
    (hmax : ∀ x ∈ store, x.user_id = uid →
      x = e ∨ x.server_timestamp < e.server_timestamp) :
    latestEvent store uid = some e ∧
    ∀ name pw : String,
      buildReport [⟨uid, name, "student", pw⟩] store now
        = [deriveRow uid name (some e) now] := by
  have hl := latestEvent_max store uid e he hid hmax
  refine ⟨hl, fun name pw => ?_⟩
  have hsingle : allStudents [⟨uid, name, "student", pw⟩] = [(uid, name)] := by
    unfold allStudents insertUpdate
    simp
  rw [buildReport, hsingle]
  simp [hl]

def payloadC5 : Payload := ⟨"MCA-428", "heartbeat", ⟨some "active", some true, none⟩⟩

/-- The same payload recorded twice (at seconds 100 and 200). -/
def storeC5 : List Event := recordEvent (recordEvent [] payloadC5 100) payloadC5 200

def eventC5 : Event := ⟨"MCA-428", "heartbeat", ⟨some "active", some true, none⟩, 200⟩

theorem C5_latest_wins_witness :
    eventC5 ∈ storeC5 ∧ eventC5.user_id = "MCA-428" ∧
    (∀ x ∈ storeC5, x.user_id = "MCA-428" →
      x = eventC5 ∨ x.server_timestamp < eventC5.server_timestamp) ∧
    (latestEvent storeC5 "MCA-428" = some eventC5 ∧
      ∀ name pw : String,
        buildReport [⟨"MCA-428", name, "student", pw⟩] storeC5 250
          = [deriveRow "MCA-428" name (some eventC5) 250]) :=
  ⟨by decide, by decide, by decide,
    C5_latest_wins storeC5 "MCA-428" eventC5 250 (by decide) (by decide) (by decide)⟩

/-- C7: for every non-stale latest event whose normalized `client_status`
is `"active"` (respectively `"idle"`), status derivation returns status
`Active` (respectively `Idle`), and focus is `Focused` if `tab_focused` is
true and `Blurred` otherwise, `tab_focused` defaulting to false when
absent. -/
theorem C7_active_idle (uid name : String) (e : Event) (now : Int)
    (hfresh : ¬ e.server_timestamp < now - ACTIVITY_TIMEOUT_SECONDS) :
    (pyLower (e.metadata.client_status.getD "N/A") = "active" →
      (deriveRow uid name (some e) now).status = "Active" ∧
      (deriveRow uid name (some e) now).focus =
        (if e.metadata.tab_focused.getD false then "Focused" else "Blurred")) ∧
    (pyLower (e.metadata.client_status.getD "N/A") = "idle" →
      (deriveRow uid name (some e) now).status = "Idle" ∧
      (deriveRow uid name (some e) now).focus =
        (if e.metadata.tab_focused.getD false then "Focused" else "Blurred")) := by
  constructor
  · intro h
    constructor <;> simp [deriveRow, h, hfresh]
  · intro h
    constructor <;> simp [deriveRow, h, hfresh]

def eventC7 : Event :=
  ⟨"MCA-112", "heartbeat", ⟨some "Idle", some false, none⟩, 999940⟩

theorem C7_active_idle_witness :
    (¬ eventC7.server_timestamp < 1000000 - ACTIVITY_TIMEOUT_SECONDS) ∧
    ((pyLower (eventC7.metadata.client_status.getD "N/A") = "active" →
      (deriveRow "MCA-112" "Soni Priya" (some eventC7) 1000000).status = "Active" ∧
      (deriveRow "MCA-112" "Soni Priya" (some eventC7) 1000000).focus =
        (if eventC7.metadata.tab_focused.getD false then "Focused" else "Blurred")) ∧
    (pyLower (eventC7.metadata.client_status.getD "N/A") = "idle" →
      (deriveRow "MCA-112" "Soni Priya" (some eventC7) 1000000).status = "Idle" ∧
      (deriveRow "MCA-112" "Soni Priya" (some eventC7) 1000000).focus =
        (if eventC7.metadata.tab_focused.getD false then "Focused" else "Blurred"))) :=
  ⟨by decide, C7_active_idle "MCA-112" "Soni Priya" eventC7 1000000 (by decide)⟩

/-- C8: for every non-stale latest event whose normalized `client_status`
is none of `"logged_out"`, `"active"`, `"idle"`, status derivation returns
status `Unknown (...)` carrying the raw `client_status` title-cased for
display, with focus `N/A`. -/
theorem C8_unknown_status (uid name : String) (e : Event) (now : Int)
    (hfresh : ¬ e.server_timestamp < now - ACTIVITY_TIMEOUT_SECONDS)
    (hno : pyLower (e.metadata.client_status.getD "N/A") ∉
      (["logged_out", "active", "idle"] : List String)) :
    (deriveRow uid name (some e) now).status =
      "Unknown (" ++ pyTitle (e.metadata.client_status.getD "N/A") ++ ")" ∧
    (deriveRow uid name (some e) now).focus = "N/A" := by
  simp only [List.mem_cons, List.not_mem_nil, or_false, not_or] at hno
  obtain ⟨h1, h2, h3⟩ := hno
  rw [← pyTitle_pyLower]
  constructor <;> simp [deriveRow, h1, h2, h3, hfresh]

def eventC8 : Event :=
  ⟨"MCA-428", "heartbeat", ⟨some "away", some true, none⟩, 999940⟩

theorem C8_unknown_status_witness :
    (¬ eventC8.server_timestamp < 1000000 - ACTIVITY_TIMEOUT_SECONDS) ∧
    (pyLower (eventC8.metadata.client_status.getD "N/A") ∉
      (["logged_out", "active", "idle"] : List String)) ∧
    ((deriveRow "MCA-428" "Leni E" (some eventC8) 1000000).status = "Unknown (Away)" ∧
     (deriveRow "MCA-428" "Leni E" (some eventC8) 1000000).focus = "N/A") := by
  have h := C8_unknown_status "MCA-428" "Leni E" eventC8 1000000 (by decide) (by decide)
  exact ⟨by decide, by decide, h.1.trans (by decide), h.2⟩

/-- C9: if the latest event's metadata has no `client_status` key, status
derivation does not fail and does not report `Active`/`Idle`: the value
defaults to `"N/A"`, which for a fresh event falls through to the unknown
branch, so the row reports status `Unknown (N/A)` with focus `N/A`. -/
theorem C9_missing_client_status (uid name : String) (e : Event) (now : Int)
    (hmiss : e.metadata.client_status = none)
    (hfresh : ¬ e.server_timestamp < now - ACTIVITY_TIMEOUT_SECONDS) :
    (deriveRow uid name (some e) now).status = "Unknown (N/A)" ∧
    (deriveRow uid name (some e) now).focus = "N/A" := by
  have hcs : pyLower (e.metadata.client_status.getD "N/A") = "n/a" := by
    rw [hmiss]
    decide
  have hu : ("Unknown (" ++ pyTitle "n/a" ++ ")" : String) = "Unknown (N/A)" := by decide
  constructor
  · rw [← hu]
    simp [deriveRow, hcs, hfresh]
  · simp [deriveRow, hcs, hfresh]

def eventC9 : Event := ⟨"MCA-112", "heartbeat", ⟨none, some true, none⟩, 999940⟩

theorem C9_missing_client_status_witness :
    eventC9.metadata.client_status = none ∧
    (¬ eventC9.server_timestamp < 1000000 - ACTIVITY_TIMEOUT_SECONDS) ∧
    ((deriveRow "MCA-112" "Soni Priya" (some eventC9) 1000000).status = "Unknown (N/A)" ∧
     (deriveRow "MCA-112" "Soni Priya" (some eventC9) 1000000).focus = "N/A") :=
  ⟨rfl, by decide,
    C9_missing_client_status "MCA-112" "Soni Priya" eventC9 1000000 rfl (by decide)⟩
